import Mathlib

/-!
# wstest: in-memory websocket test client

A shallow embedding of `client.go` (type `Client` with `NewClient`, `Connect`,
`runServer`, `Hijack`, `WriteHeader`, `Close`) over a model of the paired
in-memory connection (`conn`, `newPairedConnections`) that `client.go` calls.

Go pointers are modelled by references into an explicit heap (`World`), Go
`error` values by `Option Err` (`none` is `nil`), a panic by an explicit
outcome, and the external collaborators (gorilla's `websocket.Dialer.Dial` and
`websocket.Conn.Close`, `http.ReadRequest`, `http.Response.Write`) by function
parameters.
-/

namespace wstest

/-- Bytes travel through the pipe untouched; a byte is represented by its numeric value. -/
abbrev Byte := Nat

/-- Go error values met in this package: `io.ErrClosedPipe`, `io.EOF`, and any other error. -/
inductive Err where
  | ErrClosedPipe
  | EOF
  | other (msg : String)
deriving DecidableEq, Repr

/-- The two roles of an endpoint of a pair. -/
inductive Side where
  | server
  | client
deriving DecidableEq, Repr

/-- The role of the peer endpoint. -/
def Side.peer : Side → Side
  | .server => .client
  | .client => .server

/-- Modelled from the spec: the type `conn` (one endpoint of the in-memory pipe) is not among
the source files. Spec section 3: an endpoint has a role tag, an ordered unbounded queue of
"bytes written by the peer, not yet read by me", and a closed flag. The reference to the peer is
the other field of `Pipe`; the logging hook has no semantic effect and is left out. -/
structure conn where
  name : String
  queue : List Byte
  closed : Bool
deriving DecidableEq, Repr

/-- Modelled from the spec: the shared pipe object of spec section 9, holding the two
cross-wired endpoints (each with its incoming queue and its closed flag). -/
structure Pipe where
  server : conn
  client : conn
deriving DecidableEq, Repr

/-- The endpoint of a pipe with the given role. -/
def Pipe.get (p : Pipe) : Side → conn
  | .server => p.server
  | .client => p.client

/-- Replace the endpoint of a pipe with the given role. -/
def Pipe.set (p : Pipe) (s : Side) (e : conn) : Pipe :=
  match s with
  | .server => { p with server := e }
  | .client => { p with client := e }

/-- Modelled from the spec: the pair as created ("two instances are created together and
cross-wired"): both queues empty, both endpoints open. -/
def Pipe.fresh : Pipe :=
  { server := { name := "server", queue := [], closed := false }
    client := { name := "client", queue := [], closed := false } }

/-- Modelled from the spec: `write(bytes)` of spec section 4.1 on the endpoint with role `s`:
"appends bytes atomically to the peer's incoming queue ...; fails with ClosedPipeError if this
endpoint (or its peer, from this side's perspective) has been closed". Returns Go's `(n, err)`. -/
def Pipe.Write (s : Side) (b : List Byte) (p : Pipe) : (Nat × Option Err) × Pipe :=
  if (p.get s).closed || (p.get s.peer).closed then
    ((0, some Err.ErrClosedPipe), p)
  else
    ((b.length, none), p.set s.peer { p.get s.peer with queue := (p.get s.peer).queue ++ b })

/-- Outcome of one `read` call: bytes, end of stream, a closed-pipe error, or the call blocks
(no data yet and the stream is still open). -/
inductive ReadResult where
  | data (bytes : List Byte)
  | eof
  | closedPipe
  | blocked
deriving DecidableEq, Repr

/-- Modelled from the spec: `read(bufferCapacity)` of spec section 4.1 on the endpoint with role
`s`: "blocks until at least one byte is enqueued for this endpoint or the pipe is closed; returns
as many available bytes as fit in bufferCapacity ... Returns EndOfStream once the peer has closed
and the queue is drained"; reading on an endpoint that was itself closed is the closed-pipe error
of spec section 7. -/
def Pipe.Read (s : Side) (cap : Nat) (p : Pipe) : ReadResult × Pipe :=
  if (p.get s).closed then (ReadResult.closedPipe, p)
  else if (p.get s).queue = [] then
    (if (p.get s.peer).closed then (ReadResult.eof, p) else (ReadResult.blocked, p))
  else
    (ReadResult.data ((p.get s).queue.take cap),
      p.set s { p.get s with queue := (p.get s).queue.drop cap })

/-- Modelled from the spec: `close()` of spec section 4.1 on the endpoint with role `s`:
"idempotent; marks this endpoint closed". -/
def Pipe.Close (s : Side) (p : Pipe) : Option Err × Pipe :=
  (none, p.set s { p.get s with closed := true })

/-- A Go `*conn`: the address of the pair on the heap and the role of the endpoint in it. -/
structure ConnRef where
  pipe : Nat
  side : Side
deriving DecidableEq, Repr

/-- The reference to the peer endpoint. -/
def ConnRef.peer (r : ConnRef) : ConnRef := { r with side := r.side.peer }

/-- The heap of pairs: `next` is the first address not yet allocated. -/
structure World where
  next : Nat
  pipes : Nat → Pipe

/-- The heap before any allocation. -/
def World.empty : World := { next := 0, pipes := fun _ => Pipe.fresh }

/-- The endpoint a reference points to. -/
def World.endpoint (w : World) (r : ConnRef) : conn := (w.pipes r.pipe).get r.side

/-- Modelled from the spec: whether an endpoint is open. Spec section 3 gives an endpoint "a
closed flag, independently settable per direction (peer-closed vs self-closed)"; the endpoint is
open when the flag is set in neither direction, that is when neither it nor its peer has been
closed. This is exactly when `write` of spec section 4.1 is not refused ("fails with
ClosedPipeError if this endpoint (or its peer, from this side's perspective) has been closed"). -/
def World.isOpen (w : World) (r : ConnRef) : Bool :=
  !(w.endpoint r).closed && !(w.endpoint r.peer).closed

/-- Run an operation of the pipe at address `i`, storing the pipe it leaves. -/
def World.onPipe {α : Type} (w : World) (i : Nat) (f : Pipe → α × Pipe) : α × World :=
  ((f (w.pipes i)).1, { w with pipes := Function.update w.pipes i (f (w.pipes i)).2 })

/-- Modelled from the spec: `newPairedConnections` is called by `NewClient` but is not among the
source files; it allocates a new pair and returns `(server, client)`. -/
def newPairedConnections (w : World) : (ConnRef × ConnRef) × World :=
  (({ pipe := w.next, side := Side.server }, { pipe := w.next, side := Side.client }),
    { next := w.next + 1, pipes := Function.update w.pipes w.next Pipe.fresh })

/-- The method `(*conn).Write` through a reference. -/
def conn.Write (r : ConnRef) (b : List Byte) (w : World) : (Nat × Option Err) × World :=
  w.onPipe r.pipe (Pipe.Write r.side b)

/-- The method `(*conn).Read` through a reference. -/
def conn.Read (r : ConnRef) (cap : Nat) (w : World) : ReadResult × World :=
  w.onPipe r.pipe (Pipe.Read r.side cap)

/-- The method `(*conn).Close` through a reference. -/
def conn.Close (r : ConnRef) (w : World) : Option Err × World :=
  w.onPipe r.pipe (Pipe.Close r.side)

/-- One step of a schedule over a pair: a write on endpoint A or a read on endpoint B. -/
inductive Ev where
  | write (bytes : List Byte)
  | read (cap : Nat)
deriving DecidableEq, Repr

/-- What a schedule has produced so far: the heap, the bytes the reads on B returned (in order)
and the results of the writes on A (in order). -/
structure Exchange where
  world : World
  received : List Byte
  results : List (Nat × Option Err)

/-- Perform one step: a write on `a`, or a read on `b` whose bytes are appended to `received`
(a read that blocks, or fails, delivers nothing). -/
def Exchange.step (a b : ConnRef) (t : Exchange) : Ev → Exchange
  | .write bytes =>
    let r := conn.Write a bytes t.world
    { world := r.2, received := t.received, results := t.results ++ [r.1] }
  | .read cap =>
    match conn.Read b cap t.world with
    | (ReadResult.data bs, w) => { t with world := w, received := t.received ++ bs }
    | (_, w) => { t with world := w }

/-- Perform a schedule from left to right. -/
def Exchange.run (a b : ConnRef) (evs : List Ev) (t : Exchange) : Exchange :=
  evs.foldl (Exchange.step a b) t

/-- The byte strings a schedule writes, in order. -/
def written : List Ev → List (List Byte)
  | [] => []
  | .write bytes :: evs => bytes :: written evs
  | .read _ :: evs => written evs

/-! ## client.go -/

/-- A live `*websocket.Conn` of the external library, known only by a handle. -/
structure WsConn where
  id : Nat
deriving DecidableEq, Repr

/-- The type `Client` of client.go: the embedded `*websocket.Conn` (`none` is `nil`) and the two
endpoints. The embedded `httptest.ResponseRecorder` is not touched by the methods below. -/
structure Client where
  Conn : Option WsConn
  sConn : ConnRef
  cConn : ConnRef
deriving DecidableEq, Repr

/-- The function `NewClient` of client.go. -/
def NewClient (w : World) : Client × World :=
  let r := newPairedConnections w
  ({ Conn := none, sConn := r.1.1, cConn := r.1.2 }, r.2)

/-- The part of `websocket.Dialer` that `Connect` fills in: `NetDial`, from a network and an
address to `(net.Conn, error)`. -/
structure Dialer where
  NetDial : String → String → World → (ConnRef × Option Err) × World

/-- The external `(*websocket.Dialer).Dial(url, nil)`: from the dialer and the URL to the
connection and the error it returns (the `*http.Response` is discarded by `Connect`). Whatever
the concurrently running server task does while `Dial` waits is part of its effect on the heap. -/
abbrev DialFn := Dialer → String → World → (Option WsConn × Option Err) × World

/-- An `*http.Request`, as far as a handler of this package looks at it. -/
structure Request where
  Method : String
  Path : String
deriving DecidableEq, Repr

/-- How a call ends: it returns, or it panics with an error. -/
inductive Outcome where
  | returned (w : World)
  | panicked (e : Err) (w : World)

/-- The method `ServeHTTP` of an `http.Handler`; the response writer it receives is the Client. -/
abbrev Handler := Client → Request → World → Outcome

/-- A `*bufio.Reader`: the reader it wraps and the bytes it has buffered. -/
structure BufReader where
  rd : ConnRef
  buf : List Byte
deriving DecidableEq, Repr

/-- A `*bufio.Writer`: the writer it wraps and the bytes not yet flushed. -/
structure BufWriter where
  wr : ConnRef
  buf : List Byte
deriving DecidableEq, Repr

/-- A `*bufio.ReadWriter`. -/
structure BufReadWriter where
  Reader : BufReader
  Writer : BufWriter
deriving DecidableEq, Repr

/-- The constructor `bufio.NewReader`: wraps the reader, reads nothing. -/
def bufio.NewReader (r : ConnRef) : BufReader := { rd := r, buf := [] }

/-- The constructor `bufio.NewWriter`: wraps the writer, writes nothing. -/
def bufio.NewWriter (r : ConnRef) : BufWriter := { wr := r, buf := [] }

/-- The constructor `bufio.NewReadWriter`. -/
def bufio.NewReadWriter (r : BufReader) (w : BufWriter) : BufReadWriter :=
  { Reader := r, Writer := w }

/-- The external `http.ReadRequest`: reads from the buffered reader and returns the request or
the parse error. -/
abbrev ReadRequestFn := BufReader → World → Except Err Request × World

/-- The goroutine started by `go c.runServer(h)`. -/
structure ServerTask where
  client : Client
  handler : Handler

/-- What one call of `Connect` does: the goroutine it starts, the dialer it builds, the error it
returns, the Client as it leaves it and the heap. -/
structure ConnectResult where
  spawned : ServerTask
  dialer : Dialer
  err : Option Err
  client : Client
  world : World

/-- The method `Connect` of client.go. -/
def Connect (Dial : DialFn) (c : Client) (h : Handler) (url : String) (w : World) :
    ConnectResult :=
  -- go c.runServer(h)
  let task : ServerTask := { client := c, handler := h }
  let dialer : Dialer := { NetDial := fun _network _addr w1 => ((c.cConn, none), w1) }
  -- c.Conn, _, err = dialer.Dial(url, nil)
  let r := Dial dialer url w
  let c1 : Client := { c with Conn := r.1.1 }
  match r.1.2 with
  | some err => { spawned := task, dialer := dialer, err := some err, client := c1, world := r.2 }
  | none => { spawned := task, dialer := dialer, err := none, client := c1, world := r.2 }

/-- The method `runServer` of client.go. -/
def runServer (ReadRequest : ReadRequestFn) (c : Client) (h : Handler) (w : World) : Outcome :=
  match ReadRequest (bufio.NewReader c.sConn) w with
  | (Except.error err, w1) => Outcome.panicked err w1
  | (Except.ok req, w1) => h c req w1

/-- The method `Hijack` of client.go: returns `(net.Conn, *bufio.ReadWriter, error)`. -/
def Hijack (c : Client) (w : World) : (ConnRef × BufReadWriter × Option Err) × World :=
  let rw := bufio.NewReadWriter (bufio.NewReader c.sConn) (bufio.NewWriter c.sConn)
  ((c.sConn, rw, none), w)

/-- An `http.Response` as `WriteHeader` builds it: only `StatusCode` is set. -/
structure Response where
  StatusCode : Int
deriving DecidableEq, Repr

/-- The external `(*http.Response).Write`: the bytes `encode r` of the serialised response are
written to the connection; the error is the connection's. -/
def Response.Write (encode : Response → List Byte) (r : Response) (dst : ConnRef) (w : World) :
    Option Err × World :=
  let res := conn.Write dst (encode r) w
  (res.1.2, res.2)

/-- The method `WriteHeader` of client.go; the results of `r.Write` and of `Close` are dropped. -/
def WriteHeader (encode : Response → List Byte) (c : Client) (code : Int) (w : World) : World :=
  let r : Response := { StatusCode := code }
  let w1 := (Response.Write encode r c.sConn w).2
  (conn.Close c.sConn w1).2

/-- The external `(*websocket.Conn).Close`. -/
abbrev WsCloseFn := WsConn → World → Option Err × World

/-- The method `Close` of client.go. -/
def Close (wsClose : WsCloseFn) (c : Client) (w : World) : Option Err × World :=
  match c.Conn with
  | none => (none, w)
  | some k => wsClose k w

/-- The endpoints one connect attempt runs over: the one its dialer hands out and the one its
server task reads from. -/
def ConnectResult.endpoints (r : ConnectResult) : ConnRef × ConnRef :=
  ((r.dialer.NetDial "tcp" "example.org:80" r.world).1.1, r.spawned.client.sConn)

/-- A serialiser used for concrete runs: the ASCII bytes of "HTTP " and of the three decimal
digits of the status code. -/
def sampleEncode (r : Response) : List Byte :=
  [72, 84, 84, 80, 32, 48 + r.StatusCode.toNat / 100 % 10, 48 + r.StatusCode.toNat / 10 % 10,
    48 + r.StatusCode.toNat % 10]

/-- A dialer used for concrete runs: the handshake fails and no connection is returned. -/
def failingDial : DialFn := fun _ _ w => ((none, some (Err.other "bad handshake")), w)

/-- A handler used for concrete runs: it answers every request with status 404. -/
def notFoundHandler : Handler := fun c _ w => Outcome.returned (WriteHeader sampleEncode c 404 w)

/-- A request reader used for concrete runs: the bytes never parse. -/
def rejectingReadRequest : ReadRequestFn :=
  fun _ w => (Except.error (Err.other "malformed HTTP request"), w)

/-- A call of one of the methods of an endpoint. -/
inductive Op where
  | write (r : ConnRef) (bytes : List Byte)
  | read (r : ConnRef) (cap : Nat)
  | close (r : ConnRef)
deriving DecidableEq, Repr

/-- The heap after a call of a method of an endpoint. -/
def World.apply (w : World) : Op → World
  | .write r bytes => (conn.Write r bytes w).2
  | .read r cap => (conn.Read r cap w).2
  | .close r => (conn.Close r w).2

/-! ## Auxiliary facts about pipes and the heap -/

@[simp] theorem Side.peer_peer (s : Side) : s.peer.peer = s := by cases s <;> rfl

@[simp] theorem Pipe.get_set_same (p : Pipe) (s : Side) (e : conn) : (p.set s e).get s = e := by
  cases s <;> rfl

@[simp] theorem Pipe.get_set_peer (p : Pipe) (s : Side) (e : conn) :
    (p.set s.peer e).get s = p.get s := by
  cases s <;> rfl

@[simp] theorem Pipe.get_peer_set (p : Pipe) (s : Side) (e : conn) :
    (p.set s e).get s.peer = p.get s.peer := by
  cases s <;> rfl

@[simp] theorem World.onPipe_fst {α : Type} (w : World) (i : Nat) (f : Pipe → α × Pipe) :
    (w.onPipe i f).1 = (f (w.pipes i)).1 := rfl

@[simp] theorem World.onPipe_pipes_same {α : Type} (w : World) (i : Nat) (f : Pipe → α × Pipe) :
    (w.onPipe i f).2.pipes i = (f (w.pipes i)).2 := by
  simp [World.onPipe]

theorem World.onPipe_pipes_other {α : Type} (w : World) (i j : Nat) (f : Pipe → α × Pipe)
    (h : j ≠ i) : (w.onPipe i f).2.pipes j = w.pipes j := by
  simp [World.onPipe, Function.update_noteq h]

@[simp] theorem World.onPipe_next {α : Type} (w : World) (i : Nat) (f : Pipe → α × Pipe) :
    (w.onPipe i f).2.next = w.next := rfl

theorem World.onPipe_unchanged {α : Type} (w : World) (i : Nat) (f : Pipe → α × Pipe)
    (h : (f (w.pipes i)).2 = w.pipes i) : (w.onPipe i f).2 = w := by
  cases w with
  | mk next pipes =>
    simp only [World.onPipe] at h ⊢
    rw [h, Function.update_eq_self]

/-- A write on an endpoint that is closed fails and leaves the pipe as it was. -/
theorem Pipe.Write_closed (s : Side) (b : List Byte) (p : Pipe) (h : (p.get s).closed = true) :
    Pipe.Write s b p = ((0, some Err.ErrClosedPipe), p) := by
  simp [Pipe.Write, h]

/-- A write between two open endpoints appends to the queue of the peer. -/
theorem Pipe.Write_open (s : Side) (b : List Byte) (p : Pipe) (h : (p.get s).closed = false)
    (hp : (p.get s.peer).closed = false) :
    Pipe.Write s b p =
      ((b.length, none), p.set s.peer { p.get s.peer with queue := (p.get s.peer).queue ++ b }) := by
  simp [Pipe.Write, h, hp]

/-- The step of a schedule between the two open endpoints of one pair keeps both open, keeps
`received ++ queue` in step with what was written, and every write succeeds in full. -/
theorem Exchange.step_spec (i : Nat) (s : Side) (t : Exchange) (ev : Ev)
    (ha : (t.world.endpoint ⟨i, s⟩).closed = false)
    (hb : (t.world.endpoint ⟨i, s.peer⟩).closed = false) :
    ((Exchange.step ⟨i, s⟩ ⟨i, s.peer⟩ t ev).world.endpoint ⟨i, s⟩).closed = false ∧
    ((Exchange.step ⟨i, s⟩ ⟨i, s.peer⟩ t ev).world.endpoint ⟨i, s.peer⟩).closed = false ∧
    (Exchange.step ⟨i, s⟩ ⟨i, s.peer⟩ t ev).received ++
        ((Exchange.step ⟨i, s⟩ ⟨i, s.peer⟩ t ev).world.endpoint ⟨i, s.peer⟩).queue =
      t.received ++ (t.world.endpoint ⟨i, s.peer⟩).queue ++ (written [ev]).flatten ∧
    (Exchange.step ⟨i, s⟩ ⟨i, s.peer⟩ t ev).results =
      t.results ++ (written [ev]).map (fun b => (b.length, none)) := by
  simp only [World.endpoint] at ha hb
  cases ev with
  | write bytes =>
    simp only [Exchange.step, conn.Write, World.endpoint, World.onPipe_pipes_same,
      World.onPipe_fst, Pipe.Write_open s bytes _ ha hb, written]
    simp [ha, hb]
  | read cap =>
    simp only [Exchange.step, conn.Read, World.endpoint, written]
    by_cases hq : ((t.world.pipes i).get s.peer).queue = []
    · have hr : Pipe.Read s.peer cap (t.world.pipes i) = (ReadResult.blocked, t.world.pipes i) := by
        simp [Pipe.Read, hb, hq, ha]
      have hw : (t.world.onPipe i (Pipe.Read s.peer cap)) = (ReadResult.blocked, t.world) := by
        apply Prod.ext
        · simp [hr]
        · exact World.onPipe_unchanged _ _ _ (by rw [hr])
      rw [hw]
      simp [ha, hb]
    · have hr : Pipe.Read s.peer cap (t.world.pipes i) =
          (ReadResult.data (((t.world.pipes i).get s.peer).queue.take cap),
            (t.world.pipes i).set s.peer { (t.world.pipes i).get s.peer with
              queue := ((t.world.pipes i).get s.peer).queue.drop cap }) := by
        simp [Pipe.Read, hb, hq]
      have hw : (t.world.onPipe i (Pipe.Read s.peer cap)) =
          (ReadResult.data (((t.world.pipes i).get s.peer).queue.take cap),
            (t.world.onPipe i (Pipe.Read s.peer cap)).2) := by
        apply Prod.ext
        · simp [hr]
        · rfl
      rw [hw]
      simp [hr, ha, hb, List.append_assoc]

/-- A read step on the open endpoint B of a pair removes from its queue what fits the buffer. -/
theorem Exchange.step_read_queue (i : Nat) (s : Side) (t : Exchange) (cap : Nat)
    (hb : (t.world.endpoint ⟨i, s.peer⟩).closed = false) :
    ((Exchange.step ⟨i, s⟩ ⟨i, s.peer⟩ t (Ev.read cap)).world.endpoint ⟨i, s.peer⟩).queue =
      (t.world.endpoint ⟨i, s.peer⟩).queue.drop cap := by
  simp only [World.endpoint] at hb
  simp only [Exchange.step, conn.Read, World.endpoint]
  by_cases hq : ((t.world.pipes i).get s.peer).queue = []
  · have hr : (Pipe.Read s.peer cap (t.world.pipes i)).2 = t.world.pipes i := by
      simp only [Pipe.Read, hb, hq]
      split_ifs <;> rfl
    have hw : (t.world.onPipe i (Pipe.Read s.peer cap)).2 = t.world :=
      World.onPipe_unchanged _ _ _ hr
    have h2 : ∀ x : ReadResult × World, x.2 = t.world →
        ((match x with
          | (ReadResult.data bs, w) => { t with world := w, received := t.received ++ bs }
          | (_, w) => { t with world := w } : Exchange).world.pipes i).get s.peer =
          (t.world.pipes i).get s.peer := by
      intro x hx
      rcases x with ⟨r, w⟩
      simp only at hx
      subst hx
      cases r <;> rfl
    rw [h2 _ hw, hq]
    simp
  · have hr : Pipe.Read s.peer cap (t.world.pipes i) =
        (ReadResult.data (((t.world.pipes i).get s.peer).queue.take cap),
          (t.world.pipes i).set s.peer { (t.world.pipes i).get s.peer with
            queue := ((t.world.pipes i).get s.peer).queue.drop cap }) := by
      simp [Pipe.Read, hb, hq]
    have hw : (t.world.onPipe i (Pipe.Read s.peer cap)) =
        (ReadResult.data (((t.world.pipes i).get s.peer).queue.take cap),
          (t.world.onPipe i (Pipe.Read s.peer cap)).2) := by
      apply Prod.ext
      · simp [hr]
      · rfl
    rw [hw]
    simp [hr]

theorem written_cons (ev : Ev) (evs : List Ev) : written (ev :: evs) = written [ev] ++ written evs := by
  cases ev <;> simp [written]

theorem written_append (xs ys : List Ev) : written (xs ++ ys) = written xs ++ written ys := by
  induction xs with
  | nil => simp [written]
  | cons x xs ih => rw [List.cons_append, written_cons, ih, written_cons x xs, List.append_assoc]

theorem written_reads (caps : List Nat) : written (caps.map Ev.read) = [] := by
  induction caps with
  | nil => rfl
  | cons c cs ih => simpa [written] using ih

/-- A whole schedule between the two open endpoints of one pair: both stay open, the bytes
received so far followed by the bytes still queued are the bytes written, in order. -/
theorem Exchange.run_spec (i : Nat) (s : Side) (evs : List Ev) (t : Exchange)
    (ha : (t.world.endpoint ⟨i, s⟩).closed = false)
    (hb : (t.world.endpoint ⟨i, s.peer⟩).closed = false) :
    ((Exchange.run ⟨i, s⟩ ⟨i, s.peer⟩ evs t).world.endpoint ⟨i, s⟩).closed = false ∧
    ((Exchange.run ⟨i, s⟩ ⟨i, s.peer⟩ evs t).world.endpoint ⟨i, s.peer⟩).closed = false ∧
    (Exchange.run ⟨i, s⟩ ⟨i, s.peer⟩ evs t).received ++
        ((Exchange.run ⟨i, s⟩ ⟨i, s.peer⟩ evs t).world.endpoint ⟨i, s.peer⟩).queue =
      t.received ++ (t.world.endpoint ⟨i, s.peer⟩).queue ++ (written evs).flatten ∧
    (Exchange.run ⟨i, s⟩ ⟨i, s.peer⟩ evs t).results =
      t.results ++ (written evs).map (fun b => (b.length, none)) := by
  induction evs generalizing t with
  | nil => simp [Exchange.run, written, ha, hb]
  | cons ev evs ih =>
    obtain ⟨h1, h2, h3, h4⟩ := Exchange.step_spec i s t ev ha hb
    obtain ⟨k1, k2, k3, k4⟩ := ih (Exchange.step ⟨i, s⟩ ⟨i, s.peer⟩ t ev) h1 h2
    have hrun : Exchange.run ⟨i, s⟩ ⟨i, s.peer⟩ (ev :: evs) t =
        Exchange.run ⟨i, s⟩ ⟨i, s.peer⟩ evs (Exchange.step ⟨i, s⟩ ⟨i, s.peer⟩ t ev) := rfl
    rw [hrun, written_cons]
    refine ⟨k1, k2, ?_, ?_⟩
    · rw [k3, h3]; simp [List.append_assoc]
    · rw [k4, h4]; simp [List.append_assoc]

/-- Reads whose buffer capacities add up to at least the number of queued bytes empty the queue. -/
theorem Exchange.drain_queue (i : Nat) (s : Side) (caps : List Nat) (t : Exchange)
    (ha : (t.world.endpoint ⟨i, s⟩).closed = false)
    (hb : (t.world.endpoint ⟨i, s.peer⟩).closed = false)
    (hsum : (t.world.endpoint ⟨i, s.peer⟩).queue.length ≤ caps.sum) :
    ((Exchange.run ⟨i, s⟩ ⟨i, s.peer⟩ (caps.map Ev.read) t).world.endpoint ⟨i, s.peer⟩).queue
      = [] := by
  induction caps generalizing t with
  | nil =>
    simp only [List.sum_nil, Nat.le_zero, List.length_eq_zero] at hsum
    simpa [Exchange.run] using hsum
  | cons c cs ih =>
    obtain ⟨h1, h2, _, _⟩ := Exchange.step_spec i s t (Ev.read c) ha hb
    have hq := Exchange.step_read_queue i s t c hb
    have hrun : Exchange.run ⟨i, s⟩ ⟨i, s.peer⟩ ((c :: cs).map Ev.read) t =
        Exchange.run ⟨i, s⟩ ⟨i, s.peer⟩ (cs.map Ev.read)
          (Exchange.step ⟨i, s⟩ ⟨i, s.peer⟩ t (Ev.read c)) := rfl
    rw [hrun]
    apply ih _ h1 h2
    rw [hq, List.length_drop]
    simp only [List.sum_cons] at hsum
    omega

theorem Exchange.run_append (a b : ConnRef) (xs ys : List Ev) (t : Exchange) :
    Exchange.run a b (xs ++ ys) t = Exchange.run a b ys (Exchange.run a b xs t) := by
  simp [Exchange.run, List.foldl_append]

/-- The endpoints of a pair just created are open and their queues are empty. -/
theorem newPairedConnections_fresh (w : World) (s : Side) :
    ((newPairedConnections w).2.endpoint ⟨w.next, s⟩).closed = false ∧
    ((newPairedConnections w).2.endpoint ⟨w.next, s⟩).queue = [] := by
  cases s <;> simp [newPairedConnections, World.endpoint, Pipe.fresh, Pipe.get]

/-- Every method of an endpoint leaves a closed endpoint of its pipe closed. -/
theorem Pipe.closed_stays (p : Pipe) (s : Side) (h : (p.get s).closed = true) :
    (∀ s1 b, ((Pipe.Write s1 b p).2.get s).closed = true) ∧
    (∀ s1 cap, ((Pipe.Read s1 cap p).2.get s).closed = true) ∧
    (∀ s1, ((Pipe.Close s1 p).2.get s).closed = true) := by
  refine ⟨?_, ?_, ?_⟩
  · intro s1 b
    cases s <;> cases s1 <;> simp only [Pipe.Write] <;> split_ifs <;>
      simp_all [Pipe.get, Pipe.set, Side.peer]
  · intro s1 cap
    cases s <;> cases s1 <;> simp only [Pipe.Read] <;> split_ifs <;>
      simp_all [Pipe.get, Pipe.set, Side.peer]
  · intro s1
    cases s <;> cases s1 <;> simp_all [Pipe.Close, Pipe.get, Pipe.set]

/-- No call of a method of any endpoint reopens a closed endpoint. -/
theorem World.apply_closed (w : World) (op : Op) (r : ConnRef)
    (h : (w.endpoint r).closed = true) : ((w.apply op).endpoint r).closed = true := by
  simp only [World.endpoint] at h ⊢
  obtain ⟨h1, h2, h3⟩ := Pipe.closed_stays _ _ h
  cases op with
  | write r1 bytes =>
    simp only [World.apply, conn.Write]
    by_cases hj : r.pipe = r1.pipe
    · rw [hj, World.onPipe_pipes_same, ← hj]; exact h1 _ _
    · rw [World.onPipe_pipes_other _ _ _ _ hj]; exact h
  | read r1 cap =>
    simp only [World.apply, conn.Read]
    by_cases hj : r.pipe = r1.pipe
    · rw [hj, World.onPipe_pipes_same, ← hj]; exact h2 _ _
    · rw [World.onPipe_pipes_other _ _ _ _ hj]; exact h
  | close r1 =>
    simp only [World.apply, conn.Close]
    by_cases hj : r.pipe = r1.pipe
    · rw [hj, World.onPipe_pipes_same, ← hj]; exact h3 _
    · rw [World.onPipe_pipes_other _ _ _ _ hj]; exact h

theorem World.foldl_apply_closed (ops : List Op) (w : World) (r : ConnRef)
    (h : (w.endpoint r).closed = true) :
    ((ops.foldl World.apply w).endpoint r).closed = true := by
  induction ops generalizing w with
  | nil => exact h
  | cons op ops ih => exact ih _ (World.apply_closed w op r h)

theorem conn.Close_closed (r : ConnRef) (w : World) :
    ((conn.Close r w).2.endpoint r).closed = true := by
  simp [conn.Close, World.endpoint, Pipe.Close]

theorem conn.Write_refused (r : ConnRef) (b : List Byte) (w : World)
    (h : (w.endpoint r).closed = true) :
    conn.Write r b w = ((0, some Err.ErrClosedPipe), w) := by
  simp only [World.endpoint] at h
  have hp := Pipe.Write_closed r.side b (w.pipes r.pipe) h
  apply Prod.ext
  · simp [conn.Write, hp]
  · exact World.onPipe_unchanged _ _ _ (by rw [hp])

/-- The pipe of the server endpoint after `WriteHeader`: a write of the serialised response on the
server side, then a close of the server side; every other pipe is untouched. -/
theorem WriteHeader_pipes (encode : Response → List Byte) (c : Client) (code : Int) (w : World) :
    (WriteHeader encode c code w).pipes c.sConn.pipe =
      (Pipe.Close c.sConn.side
        (Pipe.Write c.sConn.side (encode { StatusCode := code }) (w.pipes c.sConn.pipe)).2).2 ∧
    (∀ j, j ≠ c.sConn.pipe → (WriteHeader encode c code w).pipes j = w.pipes j) ∧
    (WriteHeader encode c code w).next = w.next := by
  refine ⟨?_, ?_, ?_⟩
  · simp [WriteHeader, Response.Write, conn.Write, conn.Close]
  · intro j hj
    simp only [WriteHeader, Response.Write, conn.Write, conn.Close]
    rw [World.onPipe_pipes_other _ _ _ _ hj, World.onPipe_pipes_other _ _ _ _ hj]
  · rfl

/-- The server endpoint is closed when `WriteHeader` returns. -/
theorem WriteHeader_closes (encode : Response → List Byte) (c : Client) (code : Int) (w : World) :
    ((WriteHeader encode c code w).endpoint c.sConn).closed = true := by
  simp [World.endpoint, (WriteHeader_pipes encode c code w).1, Pipe.Close]

/-- The effect of `WriteHeader` when both endpoints of the Client's pair are open. -/
theorem WriteHeader_open (encode : Response → List Byte) (c : Client) (code : Int) (w : World)
    (hpair : c.cConn = c.sConn.peer)
    (hs : (w.endpoint c.sConn).closed = false) (hc : (w.endpoint c.cConn).closed = false) :
    ((WriteHeader encode c code w).endpoint c.cConn).queue =
      (w.endpoint c.cConn).queue ++ encode { StatusCode := code } ∧
    ((WriteHeader encode c code w).endpoint c.cConn).closed = false ∧
    ((WriteHeader encode c code w).endpoint c.sConn).queue = (w.endpoint c.sConn).queue := by
  rw [hpair] at hc ⊢
  simp only [World.endpoint, ConnRef.peer] at hs hc ⊢
  rw [(WriteHeader_pipes encode c code w).1, Pipe.Write_open _ _ _ hs hc]
  simp [Pipe.Close, hc]

/-- Outside the open state: when the peer of the server endpoint has been closed, `WriteHeader`
delivers nothing (the pipe of the server endpoint only gets the server side closed), and the
server endpoint is not open. -/
theorem WriteHeader_peer_closed (encode : Response → List Byte) (c : Client) (code : Int)
    (w : World) (hp : (w.endpoint c.sConn.peer).closed = true) :
    w.isOpen c.sConn = false ∧
    (WriteHeader encode c code w).pipes c.sConn.pipe =
      (Pipe.Close c.sConn.side (w.pipes c.sConn.pipe)).2 ∧
    ((WriteHeader encode c code w).endpoint c.sConn.peer).queue =
      (w.endpoint c.sConn.peer).queue := by
  have hw : Pipe.Write c.sConn.side (encode { StatusCode := code }) (w.pipes c.sConn.pipe) =
      ((0, some Err.ErrClosedPipe), w.pipes c.sConn.pipe) := by
    simp only [World.endpoint, ConnRef.peer] at hp
    simp [Pipe.Write, hp]
  have hpipe := (WriteHeader_pipes encode c code w).1
  rw [hw] at hpipe
  refine ⟨by simp [World.isOpen, hp], hpipe, ?_⟩
  simp only [World.endpoint, ConnRef.peer]
  rw [hpipe]
  simp [Pipe.Close]

/-! ## The claims -/

/-- C1: on the pair created by `newPairedConnections`, take either endpoint as A and the other
as B. For every schedule of writes on A interleaved with reads on B (any buffer capacities, no
close), followed by reads on B whose capacities add up to at least the number of bytes written,
every write is accepted in full and the bytes the reads on B returned, concatenated, are exactly
the written byte strings concatenated in write order. -/
theorem paired_connections_deliver_in_order (w0 : World) (s : Side) (evs : List Ev)
    (caps : List Nat) (hsum : (written evs).flatten.length ≤ caps.sum) :
    let pr := newPairedConnections w0
    let A := match s with
      | Side.server => pr.1.1
      | Side.client => pr.1.2
    let B := match s with
      | Side.server => pr.1.2
      | Side.client => pr.1.1
    let t := Exchange.run A B (evs ++ caps.map Ev.read) { world := pr.2, received := [], results := [] }
    t.received = (written evs).flatten ∧
    t.results = (written evs).map (fun b => (b.length, none)) ∧
    (t.world.endpoint B).queue = [] := by
  intro pr A B t
  have hA : A = ⟨w0.next, s⟩ := by cases s <;> rfl
  have hB : B = ⟨w0.next, s.peer⟩ := by cases s <;> rfl
  have hopenA := (newPairedConnections_fresh w0 s).1
  have hopenB := newPairedConnections_fresh w0 s.peer
  let t0 : Exchange := { world := pr.2, received := [], results := [] }
  obtain ⟨h1, h2, h3, h4⟩ := Exchange.run_spec w0.next s evs t0 hopenA hopenB.1
  have hq0 : (t0.world.endpoint ⟨w0.next, s.peer⟩).queue = [] := hopenB.2
  rw [hq0] at h3
  have hr0 : t0.received = [] := rfl
  have hs0 : t0.results = [] := rfl
  rw [hr0] at h3
  rw [hs0] at h4
  simp only [List.nil_append] at h3 h4
  have hlen : ((Exchange.run ⟨w0.next, s⟩ ⟨w0.next, s.peer⟩ evs t0).world.endpoint
      ⟨w0.next, s.peer⟩).queue.length ≤ caps.sum := by
    have := congrArg List.length h3
    simp only [List.length_append] at this
    omega
  have hd := Exchange.drain_queue w0.next s caps _ h1 h2 hlen
  obtain ⟨_, _, k3, k4⟩ := Exchange.run_spec w0.next s (caps.map Ev.read) _ h1 h2
  have ht : t = Exchange.run ⟨w0.next, s⟩ ⟨w0.next, s.peer⟩ (caps.map Ev.read)
      (Exchange.run ⟨w0.next, s⟩ ⟨w0.next, s.peer⟩ evs t0) := by
    simp only [t, hA, hB]
    exact Exchange.run_append _ _ _ _ _
  rw [hd, written_reads] at k3
  rw [written_reads] at k4
  simp only [List.append_nil, List.flatten_nil, List.map_nil] at k3 k4
  refine ⟨?_, ?_, ?_⟩
  · rw [ht, k3, h3]
  · rw [ht, k4, h4]
  · rw [ht, hB]; exact hd

/-- C1 at a concrete schedule: the client writes 1 2 3, the server reads two bytes, the client
writes 4 5, the server reads with buffers of sizes 1, 4 and 2. -/
theorem paired_connections_deliver_in_order_witness :
    (written [Ev.write [1, 2, 3], Ev.read 2, Ev.write [4, 5]]).flatten.length ≤ [1, 4, 2].sum ∧
    (Exchange.run ⟨0, Side.client⟩ ⟨0, Side.server⟩
      ([Ev.write [1, 2, 3], Ev.read 2, Ev.write [4, 5]] ++ [1, 4, 2].map Ev.read)
      { world := (newPairedConnections World.empty).2, received := [], results := [] }).received
      = [1, 2, 3, 4, 5] :=
  ⟨by decide,
    (paired_connections_deliver_in_order World.empty Side.client
      [Ev.write [1, 2, 3], Ev.read 2, Ev.write [4, 5]] [1, 4, 2] (by decide)).1⟩

/-- C3: once an endpoint has been closed, then after any further calls of methods of any
endpoints, a write on it returns `(0, io.ErrClosedPipe)` and changes nothing: the heap, and so
the incoming queue of its peer, is exactly as it was. -/
theorem write_after_close_is_closed_pipe (r : ConnRef) (b : List Byte) (w0 : World)
    (ops : List Op) :
    conn.Write r b (ops.foldl World.apply (conn.Close r w0).2) =
      ((0, some Err.ErrClosedPipe), ops.foldl World.apply (conn.Close r w0).2) ∧
    ((conn.Write r b (ops.foldl World.apply (conn.Close r w0).2)).2.endpoint r.peer).queue =
      ((ops.foldl World.apply (conn.Close r w0).2).endpoint r.peer).queue := by
  have hc := World.foldl_apply_closed ops _ r (conn.Close_closed r w0)
  have hw := conn.Write_refused r b _ hc
  exact ⟨hw, by rw [hw]⟩

/-- C4: the `NetDial` function of the dialer that `Connect` builds and hands to `Dial` returns,
for every network, every address and in every state of the heap, the Client's `cConn` with a nil
error and leaves the heap as it is; `Connect` returns what `Dial` returns for that dialer, and the
server task it starts holds the same Client; for a Client built by `NewClient`, `cConn` is the
peer of the `sConn` the server task reads from. -/
theorem connect_netdial_returns_cConn (Dial : DialFn) (c : Client) (h : Handler) (url : String)
    (w : World) (network addr : String) (w1 w0 : World) :
    (Connect Dial c h url w).dialer.NetDial network addr w1 = ((c.cConn, none), w1) ∧
    (Connect Dial c h url w).err = (Dial (Connect Dial c h url w).dialer url w).1.2 ∧
    (Connect Dial c h url w).world = (Dial (Connect Dial c h url w).dialer url w).2 ∧
    (Connect Dial c h url w).spawned.client = c ∧
    (NewClient w0).1.cConn = (NewClient w0).1.sConn.peer := by
  refine ⟨?_, ?_, ?_, ?_, rfl⟩
  · simp only [Connect]; split <;> rfl
  · simp only [Connect]; split <;> simp_all
  · simp only [Connect]; split <;> rfl
  · simp only [Connect]; split <;> rfl

/-- C5: `Hijack` returns a nil error, the Client's `sConn` as the connection, and a buffered
reader and a buffered writer that both wrap `sConn` and hold no bytes; it leaves the heap exactly
as it was, so it writes nothing to and closes neither endpoint; the connection it returns is the
one `runServer` reads the request from. -/
theorem hijack_returns_sConn (c : Client) (w : World) :
    (Hijack c w).1.2.2 = none ∧
    (Hijack c w).1.1 = c.sConn ∧
    (Hijack c w).1.2.1.Reader = bufio.NewReader c.sConn ∧
    (Hijack c w).1.2.1.Writer = bufio.NewWriter c.sConn ∧
    (Hijack c w).1.2.1.Reader.rd = c.sConn ∧ (Hijack c w).1.2.1.Reader.buf = [] ∧
    (Hijack c w).1.2.1.Writer.wr = c.sConn ∧ (Hijack c w).1.2.1.Writer.buf = [] ∧
    (Hijack c w).2 = w ∧
    (∀ r, (Hijack c w).2.endpoint r = w.endpoint r) ∧
    (∀ (ReadRequest : ReadRequestFn) (h : Handler), runServer ReadRequest c h w =
      (match ReadRequest (bufio.NewReader (Hijack c w).1.1) w with
        | (Except.error err, w1) => Outcome.panicked err w1
        | (Except.ok req, w1) => h c req w1)) :=
  ⟨rfl, rfl, rfl, rfl, rfl, rfl, rfl, rfl, rfl, fun _ => rfl, fun _ _ => rfl⟩

/-- C7: when `http.ReadRequest` on the server endpoint returns an error, `runServer` panics with
that error, in the heap `ReadRequest` left: so with whatever handler, which is never called. -/
theorem runServer_panics_on_bad_request (ReadRequest : ReadRequestFn) (c : Client) (h : Handler)
    (w : World) (err : Err) (w1 : World)
    (hbad : ReadRequest (bufio.NewReader c.sConn) w = (Except.error err, w1)) :
    runServer ReadRequest c h w = Outcome.panicked err w1 ∧
    (∀ h2 : Handler, runServer ReadRequest c h2 w = Outcome.panicked err w1) := by
  have key : ∀ h2 : Handler, runServer ReadRequest c h2 w = Outcome.panicked err w1 := by
    intro h2
    simp only [runServer, hbad]
  exact ⟨key h, key⟩

/-- C7 on a new Client with a handler that would close the server endpoint: the task panics and
the server endpoint is still open. -/
theorem runServer_panics_on_bad_request_witness :
    rejectingReadRequest (bufio.NewReader (NewClient World.empty).1.sConn) (NewClient World.empty).2
      = (Except.error (Err.other "malformed HTTP request"), (NewClient World.empty).2) ∧
    runServer rejectingReadRequest (NewClient World.empty).1 notFoundHandler (NewClient World.empty).2
      = Outcome.panicked (Err.other "malformed HTTP request") (NewClient World.empty).2 :=
  ⟨rfl, (runServer_panics_on_bad_request rejectingReadRequest (NewClient World.empty).1
    notFoundHandler (NewClient World.empty).2 _ _ rfl).1⟩

/-- C8: `Close` on a Client whose `Conn` is nil returns nil and leaves the heap, so both
endpoints, as it was; that is the case of a Client just built by `NewClient`; on a Client whose
`Conn` is a live connection it returns the result of closing that connection; and after `Connect`
the Client holds exactly the connection `Dial` returned, nil when `Dial` returned none. -/
theorem close_nil_or_delegates (wsClose : WsCloseFn) (sConn cConn : ConnRef) (k : WsConn)
    (w w0 : World) (Dial : DialFn) (c : Client) (h : Handler) (url : String) :
    Close wsClose { Conn := none, sConn := sConn, cConn := cConn } w = (none, w) ∧
    Close wsClose { Conn := some k, sConn := sConn, cConn := cConn } w = wsClose k w ∧
    Close wsClose (NewClient w0).1 w = (none, w) ∧
    (Connect Dial c h url w0).client.Conn = (Dial (Connect Dial c h url w0).dialer url w0).1.1 ∧
    Close wsClose (Connect Dial c h url w0).client w =
      (match (Dial (Connect Dial c h url w0).dialer url w0).1.1 with
        | none => (none, w)
        | some k1 => wsClose k1 w) := by
  have hconn : (Connect Dial c h url w0).client.Conn =
      (Dial (Connect Dial c h url w0).dialer url w0).1.1 := by
    simp only [Connect]; split <;> rfl
  refine ⟨rfl, rfl, rfl, hconn, ?_⟩
  simp only [Close, hconn]

/-- C9, as stated, fails: on a new Client, `WriteHeader(404)` called after `Hijack` writes the
response, which reaches the queue of the client endpoint, and closes the server endpoint, which
was open after `Hijack`. -/
theorem WriteHeader_after_Hijack_counterexample :
    (((Hijack (NewClient World.empty).1 (NewClient World.empty).2).2).endpoint
        (NewClient World.empty).1.sConn).closed = false ∧
    ((WriteHeader sampleEncode (NewClient World.empty).1 404
        (Hijack (NewClient World.empty).1 (NewClient World.empty).2).2).endpoint
        (NewClient World.empty).1.cConn).queue = [72, 84, 84, 80, 32, 52, 48, 52] ∧
    ((WriteHeader sampleEncode (NewClient World.empty).1 404
        (Hijack (NewClient World.empty).1 (NewClient World.empty).2).2).endpoint
        (NewClient World.empty).1.sConn).closed = true := by
  decide

/-- C9, amended: `Hijack` records nothing. For every Client and status code, `WriteHeader(code)`
called after `Hijack` does exactly what it does without `Hijack`: it closes the server endpoint,
and when both endpoints of the pair are open it appends the serialised response to the queue of
the client endpoint. -/
theorem WriteHeader_after_Hijack_unchanged (encode : Response → List Byte) (c : Client)
    (code : Int) (w : World) :
    WriteHeader encode c code (Hijack c w).2 = WriteHeader encode c code w ∧
    ((WriteHeader encode c code (Hijack c w).2).endpoint c.sConn).closed = true ∧
    (c.cConn = c.sConn.peer → (w.endpoint c.sConn).closed = false →
      (w.endpoint c.cConn).closed = false →
      ((WriteHeader encode c code (Hijack c w).2).endpoint c.cConn).queue =
        (w.endpoint c.cConn).queue ++ encode { StatusCode := code }) :=
  ⟨rfl, WriteHeader_closes encode c code w,
    fun hpair hs hc => (WriteHeader_open encode c code w hpair hs hc).1⟩

/-- C9, amended, on a new Client: after `Hijack`, `WriteHeader(404)` delivers the response. -/
theorem WriteHeader_after_Hijack_unchanged_witness :
    ((WriteHeader sampleEncode (NewClient World.empty).1 404
        (Hijack (NewClient World.empty).1 (NewClient World.empty).2).2).endpoint
        (NewClient World.empty).1.cConn).queue = [] ++ [72, 84, 84, 80, 32, 52, 48, 52] :=
  (WriteHeader_after_Hijack_unchanged sampleEncode (NewClient World.empty).1 404
    (NewClient World.empty).2).2.2 (by decide) (by decide) (by decide)

/-- C10, as stated, fails: two `Connect` calls on the same new Client run over the same two
endpoints, and the second call allocates no pair. -/
theorem Connect_twice_counterexample :
    (Connect failingDial
        (Connect failingDial (NewClient World.empty).1 notFoundHandler "ws://example.org/not-ws"
          (NewClient World.empty).2).client
        notFoundHandler "ws://example.org/ws"
        (Connect failingDial (NewClient World.empty).1 notFoundHandler "ws://example.org/not-ws"
          (NewClient World.empty).2).world).endpoints =
      (Connect failingDial (NewClient World.empty).1 notFoundHandler "ws://example.org/not-ws"
        (NewClient World.empty).2).endpoints ∧
    (Connect failingDial
        (Connect failingDial (NewClient World.empty).1 notFoundHandler "ws://example.org/not-ws"
          (NewClient World.empty).2).client
        notFoundHandler "ws://example.org/ws"
        (Connect failingDial (NewClient World.empty).1 notFoundHandler "ws://example.org/not-ws"
          (NewClient World.empty).2).world).world.next =
      (NewClient World.empty).2.next := by
  decide

/-- C10, amended: the pair belongs to the Client, not to the connect attempt. Every `Connect`
call hands the Client's `cConn` to the dialer and its `sConn` to the server task, keeps both
fields, and leaves the heap as `Dial` left it, so a second `Connect` on the Client it leaves runs
over the same two endpoints; a Client built by a later `NewClient` call has a different pair. -/
theorem connect_runs_over_the_clients_pair (Dial Dial2 : DialFn) (c : Client) (h h2 : Handler)
    (url url2 : String) (w w2 wa wb : World) (hlater : (NewClient wa).2.next ≤ wb.next) :
    (Connect Dial c h url w).endpoints = (c.cConn, c.sConn) ∧
    (Connect Dial c h url w).client.sConn = c.sConn ∧
    (Connect Dial c h url w).client.cConn = c.cConn ∧
    (Connect Dial c h url w).world = (Dial (Connect Dial c h url w).dialer url w).2 ∧
    (Connect Dial2 (Connect Dial c h url w).client h2 url2 w2).endpoints =
      (Connect Dial c h url w).endpoints ∧
    (NewClient wb).1.sConn.pipe ≠ (NewClient wa).1.sConn.pipe ∧
    (NewClient wb).1.cConn.pipe ≠ (NewClient wa).1.cConn.pipe ∧
    (NewClient wb).1.sConn.pipe = (NewClient wb).1.cConn.pipe := by
  have e1 : ∀ (D : DialFn) (c0 : Client) (h0 : Handler) (u : String) (v : World),
      (Connect D c0 h0 u v).endpoints = (c0.cConn, c0.sConn) := by
    intro D c0 h0 u v
    simp only [Connect, ConnectResult.endpoints]; split <;> rfl
  have e2 : (Connect Dial c h url w).client.sConn = c.sConn := by
    simp only [Connect]; split <;> rfl
  have e3 : (Connect Dial c h url w).client.cConn = c.cConn := by
    simp only [Connect]; split <;> rfl
  have e4 : (Connect Dial c h url w).world = (Dial (Connect Dial c h url w).dialer url w).2 := by
    simp only [Connect]; split <;> rfl
  have hn : (NewClient wa).2.next = wa.next + 1 := rfl
  have ha : (NewClient wa).1.sConn.pipe = wa.next := rfl
  have ha2 : (NewClient wa).1.cConn.pipe = wa.next := rfl
  have hb : (NewClient wb).1.sConn.pipe = wb.next := rfl
  have hb2 : (NewClient wb).1.cConn.pipe = wb.next := rfl
  refine ⟨e1 _ _ _ _ _, e2, e3, e4, ?_, ?_, ?_, ?_⟩
  · rw [e1, e1, e2, e3]
  · rw [ha, hb]; omega
  · rw [ha2, hb2]; omega
  · rw [hb, hb2]

/-- C10, amended, at two Clients built one after the other on the empty heap. -/
theorem connect_runs_over_the_clients_pair_witness :
    (NewClient World.empty).2.next ≤ (NewClient World.empty).2.next ∧
    (NewClient (NewClient World.empty).2).1.sConn.pipe ≠ (NewClient World.empty).1.sConn.pipe :=
  ⟨Nat.le_refl _,
    (connect_runs_over_the_clients_pair failingDial failingDial (NewClient World.empty).1
      notFoundHandler notFoundHandler "ws://example.org/ws" "ws://example.org/ws"
      (NewClient World.empty).2 (NewClient World.empty).2 World.empty (NewClient World.empty).2
      (Nat.le_refl _)).2.2.2.2.2.1⟩

end wstest
